import Mathlib

/-!
A shallow embedding of `src/core/communicator/device_class_communicator.go`
(thola's device-class communicator: scalar property accessors, the SNMP
table walker `getValuesBySNMPWalk`, the interface table assembler
`GetIfTable`/`GetInterfaces`, and the interface count resolver
`GetCountInterfaces`), together with theorems settling the frozen claims.

External collaborators (the protocol session, the typed-value coercions of
`core/value`, property fetching `getProperty`, the `head`/root communicator
plumbing of `baseCommunicator`) are not part of the analyzed source; they
are modelled from the spec as opaque function fields or simple parsers, as
noted on each definition.
-/

set_option autoImplicit false

namespace Thola

/-- Errors, mirroring the Go error values produced and consumed by the
communicator: `tholaerr.NewNotImplementedError`, `tholaerr` not-found
errors, `errors.New`/`fmt.Errorf` plain errors, `errors.Wrap` wrapping,
and — kept distinct from every ordinary error — a Go runtime panic
(nil-pointer dereference / index out of range), which in Go aborts the
call abnormally instead of being returned. -/
inductive Err where
  | notImplemented (msg : String)
  | notFound (msg : String)
  | str (msg : String)
  | wrapped (ctx : String) (cause : Err)
  | panic (msg : String)
  deriving DecidableEq, Repr

/-- `tholaerr.IsNotFoundError` (external, trivial classifier): true exactly
for the not-found error kind. -/
def isNotFoundError : Err → Bool
  | .notFound _ => true
  | _ => false

/-- One protocol call issued against the SNMP session: a single-object get
or a subtree walk. The embedding threads an explicit trace of these so
that "no protocol call is attempted" is a provable statement. -/
inductive ProtoCall where
  | get (oid : String)
  | walk (oid : String)
  deriving DecidableEq, Repr

/-- The dynamic value held by an SNMP get response (`GetValue()` returns
`interface{}`; `GetCountInterfaces` type-asserts it to `int`). -/
inductive GoVal where
  | int (n : Int)
  | str (s : String)
  deriving DecidableEq, Repr

/-- One SNMP response row. `getValue` models `GetValue()` and `valueBy`
models `GetValueBySNMPGetConfiguration` (both methods of the external
`network` package, modelled from the spec as opaque fallible
interpretations of the row). -/
structure SnmpRow where
  oid : String
  getValue : Except Err GoVal
  valueBy : String → Except Err String

/-- Modelled from the spec: the external Protocol Session collaborator.
`walk ctxOid` is the subtree walk `SNMPWalk`, `get oid` the single fetch
`SNMPGet`; both are deterministic functions of the OID for one session. -/
structure Session where
  walk : String → Except Err (List SnmpRow)
  get : String → Except Err (List SnmpRow)

/-- One named OID definition inside a Named-OID Group:
`{OID, SNMPGetConfiguration, operators}`. The response-interpretation
configuration is opaque (a token handed to `SnmpRow.valueBy`), and
`operators` models `oid.operators.apply` on `value.Value` (a string). -/
structure OIDDef where
  oid : String
  cfg : String
  operators : String → Except Err String

/-- A Named-OID Group: mapping from field name to OID definition
(`deviceClassInterfaceOIDs`). Modelled as an association list; the Go map
iteration order is arbitrary, so no theorem below depends on this order
beyond what the code itself fixes. -/
abbrev OIDGroup := List (String × OIDDef)

/-- One entry of the Grouped Raw Table: field name ↦ normalized value
(`map[string]interface{}` holding `value.Value` strings). -/
abbrev RawEntry := List (String × String)

/-- The Grouped Raw Table: index string ↦ raw entry
(`map[string]map[string]interface{}`). -/
abbrev RawTable := List (String × RawEntry)

/-- Store `name ↦ v` in a raw entry: overwrite if present, append if not
(Go map assignment). -/
def updEntry (e : RawEntry) (name v : String) : RawEntry :=
  match e with
  | [] => [(name, v)]
  | (n, w) :: rest =>
    if n = name then (name, v) :: rest else (n, w) :: updEntry rest name v

/-- Store `(idx, name) ↦ v` in the Grouped Raw Table, creating the index's
sub-map on first use (the `if _, ok := networkInterfaces[ifIndex]; !ok`
block followed by the assignment). -/
def updTable (t : RawTable) (idx name v : String) : RawTable :=
  match t with
  | [] => [(idx, [(name, v)])]
  | (i, e) :: rest =>
    if i = idx then (i, updEntry e name v) :: rest else (i, e) :: updTable rest idx name v

/-- Lookup of one `(idx, name)` slot of a Grouped Raw Table. -/
def tableLookup (t : RawTable) (idx name : String) : Option String :=
  (List.lookup idx t).bind (List.lookup name)

/-- Whitespace as recognized by Go's `strings.TrimSpace` (ASCII part). -/
def isSpaceChar (c : Char) : Bool :=
  c == ' ' || c == '\t' || c == '\n' || c == '\r'

/-- Modelled from the spec: Go's `strings.TrimSpace` — the fetched value
with surrounding whitespace removed. -/
def trimSpace (s : String) : String :=
  ⟨((s.data.dropWhile isSpaceChar).reverse.dropWhile isSpaceChar).reverse⟩

/-- Digit-sequence parse of a character list (empty or non-digit ⇒
none). -/
def parseNatChars (cs : List Char) : Option Nat :=
  if cs.isEmpty then none
  else if cs.all Char.isDigit then
    some (cs.foldl (fun n c => n * 10 + (c.toNat - 48)) 0)
  else none

/-- Modelled from the spec: Go's `strconv.ParseUint`-style weak string to
unsigned-number coercion. -/
def parseNatStr (s : String) : Option Nat := parseNatChars s.data

/-- Modelled from the spec: Go's `strconv.Atoi` — optional minus sign
followed by digits. -/
def parseIntStr (s : String) : Option Int :=
  match s.data with
  | '-' :: rest => (parseNatChars rest).map (fun n => -(n : Int))
  | cs => (parseNatChars cs).map (fun n => (n : Int))

/-- The trailing index component of a response OID: the last
period-delimited segment (`strings.Split(oid, "."); oid[len(oid)-1]`),
i.e. everything after the last period. -/
def lastSegment (s : String) : String :=
  ⟨(s.data.reverse.takeWhile (fun c => c ≠ '.')).reverse⟩

/-- Row handling inside `getValuesBySNMPWalk`: interpret the row per the
entry's SNMPGet configuration, drop it if the interpreted value is empty,
otherwise apply the operator chain and store the normalized value under
`(trailing index segment, entry name)`. -/
def processRow (odef : OIDDef) (name : String) (acc : RawTable) (row : SnmpRow) :
    Except Err RawTable :=
  match row.valueBy odef.cfg with
  | .error e => .error (.wrapped "couldn't get value from response response" e)
  | .ok res =>
    if res = "" then .ok acc
    else
      match odef.operators res with
      | .error e => .error (.wrapped "response couldn't be normalized" e)
      | .ok resNormalized => .ok (updTable acc (lastSegment row.oid) name resNormalized)

/-- Fold of `processRow` over the response rows of one successful walk. -/
def foldRows (odef : OIDDef) (name : String) (acc : RawTable) :
    List SnmpRow → Except Err RawTable
  | [] => .ok acc
  | row :: rest =>
    match processRow odef name acc row with
    | .error e => .error e
    | .ok acc' => foldRows odef name acc' rest

/-- The per-entry loop of `getValuesBySNMPWalk`: walk each named OID; a
not-found walk error skips just that entry, any other walk error aborts
with a wrapped error; rows of a successful walk are folded into the
accumulated Grouped Raw Table. The second component is the trace of
issued protocol calls. -/
def walkEntries (con : Session) (oids : OIDGroup) (acc : RawTable) :
    Except Err RawTable × List ProtoCall :=
  match oids with
  | [] => (.ok acc, [])
  | (name, odef) :: rest =>
    match con.walk odef.oid with
    | .error e =>
      if isNotFoundError e then
        let r := walkEntries con rest acc
        (r.1, .walk odef.oid :: r.2)
      else
        (.error (.wrapped "failed to get oid value" e), [.walk odef.oid])
    | .ok rows =>
      match foldRows odef name acc rows with
      | .error e => (.error e, [.walk odef.oid])
      | .ok acc' =>
        let r := walkEntries con rest acc'
        (r.1, .walk odef.oid :: r.2)

/-- `getValuesBySNMPWalk`: precondition that a session is present (absent
session is a hard failure before any entry is processed), then the
per-entry walk loop starting from an empty Grouped Raw Table. -/
def getValuesBySNMPWalk (con : Option Session) (oids : OIDGroup) :
    Except Err RawTable × List ProtoCall :=
  match con with
  | none => (.error (.str "snmp client is empty"), [])
  | some s => walkEntries s oids []

/-! ### Typed value coercions

thola's `value.Value` is a string wrapper (the walker converts the
interpreted response by `value.Value(res)`); its coercions are external to
the analyzed source. `String()` is the identity; the fallible coercions
are modelled from the spec ("an opaque scalar that can be coerced to
string/int/float/bool, each coercion fallible") with simple parsers. -/

/-- Modelled from the spec: `value.Value.Int()` (external `core/value`
package) — fallible coercion of the raw string to an integer. -/
def valueInt (v : String) : Except Err Int :=
  match parseIntStr v with
  | some n => .ok n
  | none => .error (.str ("strconv.Atoi: parsing " ++ v ++ ": invalid syntax"))

/-- Modelled from the spec: `value.Value.Float64()` (external `core/value`
package) — fallible coercion to a float, modelled over `Rat`
(optional sign, integer part, optional fractional part). -/
def valueFloat64 (v : String) : Except Err Rat :=
  let parse : List Char → Option Rat := fun cs =>
    match cs.span (fun c => c ≠ '.') with
    | (intPart, []) => (parseNatChars intPart).map (fun n => (n : Rat))
    | (intPart, _ :: fracPart) =>
      if fracPart.contains '.' then none
      else
        match parseNatChars intPart, parseNatChars fracPart with
        | some n, some f => some ((n : Rat) + (f : Rat) / (10 : Rat) ^ fracPart.length)
        | _, _ => none
  let core :=
    match v.data with
    | '-' :: rest => (parse rest).map Neg.neg
    | cs => parse cs
  match core with
  | some q => .ok q
  | none => .error (.str ("strconv.ParseFloat: parsing " ++ v ++ ": invalid syntax"))

/-- Modelled from the spec: `value.Value.Bool()` (external `core/value`
package) — fallible coercion to a boolean. -/
def valueBool (v : String) : Except Err Bool :=
  if v = "true" ∨ v = "1" then .ok true
  else if v = "false" ∨ v = "0" then .ok false
  else .error (.str ("strconv.ParseBool: parsing " ++ v ++ ": invalid syntax"))

/-! ### Device Class Definition -/

/-- Modelled from the spec: one Property Definition. `getProperty`
(implemented outside the analyzed source) fetches the attribute through
its configured source and operator chain, given the session; the embedding
keeps it opaque and records the protocol calls it issues. -/
structure PropertyDef where
  getProperty : Option Session → Except Err String × List ProtoCall

/-- The identification properties of a Device Class Definition; each leaf
is absent (capability undefined) or a Property Definition. -/
structure IdentifyProperties where
  vendor : Option PropertyDef := none
  model : Option PropertyDef := none
  modelSeries : Option PropertyDef := none
  serialNumber : Option PropertyDef := none
  osVersion : Option PropertyDef := none

/-- The `identify` sub-definition. -/
structure Identify where
  properties : IdentifyProperties := {}

/-- One interface type-override group (`deviceClassInterfaceTypes`): its
Named-OID Group of override columns. Modelled from the spec: the `Types`
container is declared outside the analyzed source; the spec fixes that
groups are applied in declaration order, so it is modelled as a list. -/
structure TypeDef where
  values : OIDGroup

/-- The `components.interfaces` sub-definition: optional `IfTable`
Named-OID Group, declared type-override groups, and the `Count` OID
(empty string ⇔ absent, as in the Go `Count == ""` check). -/
structure InterfacesComp where
  ifTable : Option OIDGroup := none
  types : List TypeDef := []
  count : String := ""

/-- The `components.ups` sub-definition: the ten-plus named UPS metrics,
each optional. -/
structure UPSComp where
  alarmLowVoltageDisconnect : Option PropertyDef := none
  batteryAmperage : Option PropertyDef := none
  batteryCapacity : Option PropertyDef := none
  batteryCurrent : Option PropertyDef := none
  batteryRemainingTime : Option PropertyDef := none
  batteryTemperature : Option PropertyDef := none
  batteryVoltage : Option PropertyDef := none
  currentLoad : Option PropertyDef := none
  mainsVoltageApplied : Option PropertyDef := none
  rectifierCurrent : Option PropertyDef := none
  systemVoltage : Option PropertyDef := none

/-- The `components` sub-definition. -/
structure Components where
  interfaces : Option InterfacesComp := none
  ups : Option UPSComp := none

/-- The Device Class Definition held by a `deviceClassCommunicator`. -/
structure DeviceClass where
  identify : Identify := {}
  components : Components := {}

/-- Modelled from the spec: the communicator and its `head` plumbing
(`baseCommunicator` is outside the analyzed source). `dc` is this
communicator's device class; `root` is the device class of the canonical
root-of-hierarchy communicator that `o.head` delegation always reaches. -/
structure Communicator where
  dc : DeviceClass
  root : DeviceClass

/-- The canonical root communicator reached by `o.head`: its own head is
itself. -/
def rootComm (c : Communicator) : Communicator := ⟨c.root, c.root⟩

/-! ### Scalar property accessors

Each accessor follows the uniform source pattern: capability check (absent
⇒ `NotImplementedError`, no protocol call), `getProperty` fetch (failure
wrapped with the attribute name), final coercion (strings trimmed; int /
float64 / bool coercion failure wrapped with the literal offending
value). -/

/-- `GetVendor`. -/
def GetVendor (dc : DeviceClass) (con : Option Session) :
    Except Err String × List ProtoCall :=
  match dc.identify.properties.vendor with
  | none => (.error (.notImplemented "no detection information available"), [])
  | some p =>
    match p.getProperty con with
    | (.error e, tr) => (.error (.wrapped "failed to get vendor" e), tr)
    | (.ok v, tr) => (.ok (trimSpace v), tr)

/-- `GetModel`. -/
def GetModel (dc : DeviceClass) (con : Option Session) :
    Except Err String × List ProtoCall :=
  match dc.identify.properties.model with
  | none => (.error (.notImplemented "no detection information available"), [])
  | some p =>
    match p.getProperty con with
    | (.error e, tr) => (.error (.wrapped "failed to get model" e), tr)
    | (.ok v, tr) => (.ok (trimSpace v), tr)

/-- `GetModelSeries`. -/
def GetModelSeries (dc : DeviceClass) (con : Option Session) :
    Except Err String × List ProtoCall :=
  match dc.identify.properties.modelSeries with
  | none => (.error (.notImplemented "no detection information available"), [])
  | some p =>
    match p.getProperty con with
    | (.error e, tr) => (.error (.wrapped "failed to get model_series" e), tr)
    | (.ok v, tr) => (.ok (trimSpace v), tr)

/-- `GetSerialNumber`. -/
def GetSerialNumber (dc : DeviceClass) (con : Option Session) :
    Except Err String × List ProtoCall :=
  match dc.identify.properties.serialNumber with
  | none => (.error (.notImplemented "no detection information available"), [])
  | some p =>
    match p.getProperty con with
    | (.error e, tr) => (.error (.wrapped "failed to get serial_number" e), tr)
    | (.ok v, tr) => (.ok (trimSpace v), tr)

/-- `GetOSVersion`. -/
def GetOSVersion (dc : DeviceClass) (con : Option Session) :
    Except Err String × List ProtoCall :=
  match dc.identify.properties.osVersion with
  | none => (.error (.notImplemented "no detection information available"), [])
  | some p =>
    match p.getProperty con with
    | (.error e, tr) => (.error (.wrapped "failed to get osVersion" e), tr)
    | (.ok v, tr) => (.ok (trimSpace v), tr)

/-- `GetUPSComponentAlarmLowVoltageDisconnect` (int-valued). -/
def GetUPSComponentAlarmLowVoltageDisconnect (dc : DeviceClass) (con : Option Session) :
    Except Err Int × List ProtoCall :=
  match dc.components.ups with
  | none => (.error (.notImplemented "no detection information available"), [])
  | some ups =>
    match ups.alarmLowVoltageDisconnect with
    | none => (.error (.notImplemented "no detection information available"), [])
    | some p =>
      match p.getProperty con with
      | (.error e, tr) =>
        (.error (.wrapped "failed to get UPSComponentAlarmAlarmLowVoltageDisconnect" e), tr)
      | (.ok v, tr) =>
        match valueInt v with
        | .error e =>
          (.error (.wrapped ("failed to convert value '" ++ v ++ "' to int") e), tr)
        | .ok n => (.ok n, tr)

/-- Shared body of the nine float64-valued UPS accessors (they differ only
in which Property Definition they read and in the attribute name used for
wrapping). -/
def getUPSFloatProperty (prop : Option PropertyDef) (attrName : String)
    (con : Option Session) : Except Err Rat × List ProtoCall :=
  match prop with
  | none => (.error (.notImplemented "no detection information available"), [])
  | some p =>
    match p.getProperty con with
    | (.error e, tr) => (.error (.wrapped ("failed to get " ++ attrName) e), tr)
    | (.ok v, tr) =>
      match valueFloat64 v with
      | .error e =>
        (.error (.wrapped ("failed to convert result '" ++ v ++ "' to float64") e), tr)
      | .ok q => (.ok q, tr)

/-- `GetUPSComponentBatteryAmperage` (float64-valued). -/
def GetUPSComponentBatteryAmperage (dc : DeviceClass) (con : Option Session) :
    Except Err Rat × List ProtoCall :=
  match dc.components.ups with
  | none => (.error (.notImplemented "no detection information available"), [])
  | some ups => getUPSFloatProperty ups.batteryAmperage "UPSComponentBatteryAmperage" con

/-- `GetUPSComponentBatteryCapacity` (float64-valued). -/
def GetUPSComponentBatteryCapacity (dc : DeviceClass) (con : Option Session) :
    Except Err Rat × List ProtoCall :=
  match dc.components.ups with
  | none => (.error (.notImplemented "no detection information available"), [])
  | some ups => getUPSFloatProperty ups.batteryCapacity "UPSComponentBatteryCapacity" con

/-- `GetUPSComponentBatteryCurrent` (float64-valued). -/
def GetUPSComponentBatteryCurrent (dc : DeviceClass) (con : Option Session) :
    Except Err Rat × List ProtoCall :=
  match dc.components.ups with
  | none => (.error (.notImplemented "no detection information available"), [])
  | some ups => getUPSFloatProperty ups.batteryCurrent "UPSComponentBatteryCurrent" con

/-- `GetUPSComponentBatteryRemainingTime` (float64-valued). -/
def GetUPSComponentBatteryRemainingTime (dc : DeviceClass) (con : Option Session) :
    Except Err Rat × List ProtoCall :=
  match dc.components.ups with
  | none => (.error (.notImplemented "no detection information available"), [])
  | some ups =>
    getUPSFloatProperty ups.batteryRemainingTime "UPSComponentBatteryRemainingTime" con

/-- `GetUPSComponentBatteryTemperature` (float64-valued). -/
def GetUPSComponentBatteryTemperature (dc : DeviceClass) (con : Option Session) :
    Except Err Rat × List ProtoCall :=
  match dc.components.ups with
  | none => (.error (.notImplemented "no detection information available"), [])
  | some ups =>
    getUPSFloatProperty ups.batteryTemperature "UPSComponentBatteryTemperature" con

/-- `GetUPSComponentBatteryVoltage` (float64-valued). -/
def GetUPSComponentBatteryVoltage (dc : DeviceClass) (con : Option Session) :
    Except Err Rat × List ProtoCall :=
  match dc.components.ups with
  | none => (.error (.notImplemented "no detection information available"), [])
  | some ups => getUPSFloatProperty ups.batteryVoltage "UPSComponentBatteryVoltage" con

/-- `GetUPSComponentCurrentLoad` (float64-valued). -/
def GetUPSComponentCurrentLoad (dc : DeviceClass) (con : Option Session) :
    Except Err Rat × List ProtoCall :=
  match dc.components.ups with
  | none => (.error (.notImplemented "no detection information available"), [])
  | some ups => getUPSFloatProperty ups.currentLoad "UPSComponentCurrentLoad" con

/-- `GetUPSComponentMainsVoltageApplied` (bool-valued). -/
def GetUPSComponentMainsVoltageApplied (dc : DeviceClass) (con : Option Session) :
    Except Err Bool × List ProtoCall :=
  match dc.components.ups with
  | none => (.error (.notImplemented "no detection information available"), [])
  | some ups =>
    match ups.mainsVoltageApplied with
    | none => (.error (.notImplemented "no detection information available"), [])
    | some p =>
      match p.getProperty con with
      | (.error e, tr) =>
        (.error (.wrapped "failed to get UPSComponentMainsVoltageApplied" e), tr)
      | (.ok v, tr) =>
        match valueBool v with
        | .error e =>
          (.error (.wrapped ("failed to parse value '" ++ v ++ "' to bool") e), tr)
        | .ok b => (.ok b, tr)

/-- `GetUPSComponentRectifierCurrent` (float64-valued). -/
def GetUPSComponentRectifierCurrent (dc : DeviceClass) (con : Option Session) :
    Except Err Rat × List ProtoCall :=
  match dc.components.ups with
  | none => (.error (.notImplemented "no detection information available"), [])
  | some ups =>
    getUPSFloatProperty ups.rectifierCurrent "UPSComponentRectifierCurrent" con

/-- `GetUPSComponentSystemVoltage` (float64-valued). -/
def GetUPSComponentSystemVoltage (dc : DeviceClass) (con : Option Session) :
    Except Err Rat × List ProtoCall :=
  match dc.components.ups with
  | none => (.error (.notImplemented "no detection information available"), [])
  | some ups => getUPSFloatProperty ups.systemVoltage "UPSComponentSystemVoltage" con

/-! ### Interface records and structural decode -/

/-- Modelled from the spec: the canonical Interface Record
(`device.Interface`, declared outside the analyzed source): an `IfIndex`
(pointer-typed in Go, hence optional) plus named typed fields, a
representative subset of the struct's columns. -/
structure Interface where
  ifIndex : Option Nat := none
  ifDescr : Option String := none
  ifSpeed : Option Nat := none
  ifType : Option String := none
  deriving DecidableEq, Repr

/-- `mapstructure.WeakDecode` step for the `IfIndex` field: if the raw
entry carries an `ifIndex` key (mapstructure matches field names
case-insensitively; the walker names are used verbatim here), weakly
coerce the string to the numeric field — failure is a decode error; an
absent key leaves the field untouched. -/
def decIfIndex (m : RawEntry) (r : Interface) : Except Err Interface :=
  match List.lookup "ifIndex" m with
  | none => .ok r
  | some s =>
    match parseNatStr s with
    | some n => .ok { r with ifIndex := some n }
    | none => .error (.str ("cannot decode '" ++ s ++ "' as uint64"))

/-- `mapstructure.WeakDecode` step for the string field `IfDescr`. -/
def decIfDescr (m : RawEntry) (r : Interface) : Except Err Interface :=
  match List.lookup "ifDescr" m with
  | none => .ok r
  | some s => .ok { r with ifDescr := some s }

/-- `mapstructure.WeakDecode` step for the numeric field `IfSpeed`. -/
def decIfSpeed (m : RawEntry) (r : Interface) : Except Err Interface :=
  match List.lookup "ifSpeed" m with
  | none => .ok r
  | some s =>
    match parseNatStr s with
    | some n => .ok { r with ifSpeed := some n }
    | none => .error (.str ("cannot decode '" ++ s ++ "' as uint64"))

/-- `mapstructure.WeakDecode` step for the string field `IfType`. -/
def decIfType (m : RawEntry) (r : Interface) : Except Err Interface :=
  match List.lookup "ifType" m with
  | none => .ok r
  | some s => .ok { r with ifType := some s }

/-- `mapstructure.WeakDecode(oidValue, &r)`: tolerant structural decode of
one Grouped Raw Table entry into (or onto) an Interface Record — only the
keys present in the entry touch their fields, unknown keys are ignored,
and a failing weak type coercion is a decode error. -/
def weakDecodeInto (m : RawEntry) (r : Interface) : Except Err Interface := do
  let r ← decIfIndex m r
  let r ← decIfDescr m r
  let r ← decIfSpeed m r
  decIfType m r

/-- The decode loop of `GetIfTable`: each Grouped Raw Table entry is
decoded into a fresh Interface Record; a decode failure aborts with the
wrapped error. -/
def decodeEntries : RawTable → Except Err (List Interface)
  | [] => .ok []
  | (_, m) :: rest =>
    match weakDecodeInto m {} with
    | .error e => .error (.wrapped "can't parse oid values into Interface struct" e)
    | .ok r =>
      match decodeEntries rest with
      | .error e => .error e
      | .ok rs => .ok (r :: rs)

/-- The numeric sort key `*r.IfIndex` (only meaningful when the pointer is
populated; the `sortStep` below reaches the comparison only then). -/
def ifKey (r : Interface) : Nat := r.ifIndex.getD 0

/-- The comparator relation of the `sort.Slice` call: non-strict
numeric order on the dereferenced `IfIndex` keys. -/
def ifLe (a b : Interface) : Prop := ifKey a ≤ ifKey b

instance : DecidableRel ifLe := fun a b => Nat.decLe (ifKey a) (ifKey b)

instance : IsTotal Interface ifLe := ⟨fun a b => Nat.le_total (ifKey a) (ifKey b)⟩

instance : IsTrans Interface ifLe := ⟨fun _ _ _ => Nat.le_trans⟩

/-- Comparison sort by numeric `IfIndex`, the effect of
`sort.Slice(networkInterfaces, ...)` (which sorts by the dereferenced
numeric key; ties, which Go's unstable sort leaves unspecified, are kept
in input order here). -/
def sortByIfIndex (l : List Interface) : List Interface :=
  List.insertionSort ifLe l

/-- The `sort.Slice` call of `GetIfTable`: its comparator dereferences
`*IfIndex` of both compared records. With at most one record the
comparator is never invoked; with two or more, Go's sort compares every
element at least once, so an unpopulated `IfIndex` is a nil-pointer
dereference — a runtime panic, modelled as the distinguished `Err.panic`
outcome. -/
def sortStep (l : List Interface) : Except Err (List Interface) :=
  if l.length ≤ 1 then .ok l
  else if l.all (fun r => r.ifIndex.isSome) then .ok (sortByIfIndex l)
  else .error (.panic "runtime error: invalid memory address or nil pointer dereference")

/-- `GetIfTable`: capability check on the `IfTable` definition, walk of
its Named-OID Group, structural decode of every grouped entry, then the
numeric sort. -/
def GetIfTable (c : Communicator) (con : Option Session) :
    Except Err (List Interface) × List ProtoCall :=
  match c.dc.components.interfaces with
  | none => (.error (.notImplemented "not implemented"), [])
  | some comp =>
    match comp.ifTable with
    | none => (.error (.notImplemented "not implemented"), [])
    | some oids =>
      match getValuesBySNMPWalk con oids with
      | (.error e, tr) => (.error e, tr)
      | (.ok raw, tr) =>
        match decodeEntries raw with
        | .error e => (.error e, tr)
        | .ok recs => (sortStep recs, tr)

/-- The per-record merge loop of one type-override group in
`GetInterfaces`: each base record's `*IfIndex` (a nil dereference — panic
— if unpopulated) is looked up in the override's Grouped Raw Table; on a
hit the entry is weakly decoded onto the existing record (only the
payload's fields are overwritten), a decode failure aborts with the
wrapped error, and records without a matching entry stay untouched. -/
def applyOverride (raw : RawTable) : List Interface → Except Err (List Interface)
  | [] => .ok []
  | r :: rest =>
    match r.ifIndex with
    | none => .error (.panic "runtime error: invalid memory address or nil pointer dereference")
    | some n =>
      match List.lookup (toString n) raw with
      | none =>
        match applyOverride raw rest with
        | .error e => .error e
        | .ok rs => .ok (r :: rs)
      | some m =>
        match weakDecodeInto m r with
        | .error e => .error (.wrapped "can't parse oid values into Interface struct" e)
        | .ok r' =>
          match applyOverride raw rest with
          | .error e => .error e
          | .ok rs => .ok (r' :: rs)

/-- The type-override loop of `GetInterfaces`: for each declared type
group, in declaration order, walk its Named-OID Group and merge the
resulting Grouped Raw Table into the records; a walker failure propagates
unwrapped. -/
def applyTypes (con : Option Session) (ts : List TypeDef) (recs : List Interface) :
    Except Err (List Interface) × List ProtoCall :=
  match ts with
  | [] => (.ok recs, [])
  | t :: rest =>
    match getValuesBySNMPWalk con t.values with
    | (.error e, tr) => (.error e, tr)
    | (.ok raw, tr) =>
      match applyOverride raw recs with
      | .error e => (.error e, tr)
      | .ok recs' =>
        let r := applyTypes con rest recs'
        (r.1, tr ++ r.2)

/-- `GetInterfaces`: capability check (`interfaces` absent, or both
`IfTable` and `Types` absent ⇒ unsupported), base table via the canonical
root communicator's `GetIfTable` (`o.head.GetIfTable`, failure wrapped),
then the declared type-override groups applied in order. -/
def GetInterfaces (c : Communicator) (con : Option Session) :
    Except Err (List Interface) × List ProtoCall :=
  match c.dc.components.interfaces with
  | none => (.error (.notImplemented "not implemented"), [])
  | some comp =>
    if comp.ifTable.isNone && comp.types.isEmpty then
      (.error (.notImplemented "not implemented"), [])
    else
      match GetIfTable (rootComm c) con with
      | (.error e, tr) => (.error (.wrapped "failed to get ifTable" e), tr)
      | (.ok base, tr) =>
        let r := applyTypes con comp.types base
        (r.1, tr ++ r.2)

/-- `GetCountInterfaces`: capability check on the `Count` OID (empty ⇒
unsupported), session presence check, single `SNMPGet` at the Count OID.
On a successful get the first response row is indexed without an
emptiness check (`snmpResponse[0]`, an out-of-range panic on zero rows)
and its value must be an `int`; any `SNMPGet` failure falls back to the
canonical `o.head.GetInterfaces` merged table and returns its length,
propagating a fallback failure wrapped. -/
def GetCountInterfaces (c : Communicator) (con : Option Session) :
    Except Err Int × List ProtoCall :=
  match c.dc.components.interfaces with
  | none => (.error (.notImplemented "not implemented"), [])
  | some comp =>
    if comp.count = "" then (.error (.notImplemented "not implemented"), [])
    else
      match con with
      | none => (.error (.str "snmp client is empty"), [])
      | some s =>
        match s.get comp.count with
        | .ok rows =>
          match rows with
          | [] => (.error (.panic "runtime error: index out of range [0]"), [.get comp.count])
          | row :: _ =>
            match row.getValue with
            | .error e => (.error (.wrapped "response is empty" e), [.get comp.count])
            | .ok v =>
              match v with
              | .int n => (.ok n, [.get comp.count])
              | .str _ =>
                (.error (.str "could not parse response to int"), [.get comp.count])
        | .error _ =>
          match GetInterfaces (rootComm c) con with
          | (.ok l, tr) => (.ok (l.length : Int), .get comp.count :: tr)
          | (.error e, tr) =>
            (.error (.wrapped "failed to read out interfaces" e), .get comp.count :: tr)

/-! ### Concrete fixtures used by witnesses and counterexamples -/

/-- A device class exposing only an interface Count OID. -/
def countDC : DeviceClass :=
  { components := { interfaces := some { count := "1.3.6.1.2.1.2.1.0" } } }

/-- Communicator for `countDC`, its own root. -/
def countComm : Communicator := ⟨countDC, countDC⟩

/-- A get-response row carrying the integer 42. -/
def intRow : SnmpRow :=
  { oid := "1.3.6.1.2.1.2.1.0", getValue := .ok (.int 42), valueBy := fun _ => .ok "42" }

/-- A session answering the Count OID get with the single integer row. -/
def countSession : Session :=
  { walk := fun _ => .error (.notFound "no such subtree")
    get := fun o =>
      if o = "1.3.6.1.2.1.2.1.0" then .ok [intRow] else .error (.notFound "no such object") }

/-- A session whose get succeeds with zero response rows. -/
def emptyGetSession : Session :=
  { walk := fun _ => .error (.notFound "no such subtree")
    get := fun _ => .ok [] }

/-! ### C1 — interface count resolution -/

/-- C1: with the Count OID defined and a session present,
`GetCountInterfaces` returns exactly the integer N of a successful direct
scalar fetch and issues no table walk; on any fetch failure it returns
the length of the merged table built by the canonical `GetInterfaces` for
the same inputs, and a failure of that fallback is propagated as a hard
(wrapped) failure. -/
theorem getCountInterfaces_count_resolution
    (c : Communicator) (s : Session) (comp : InterfacesComp)
    (hcomp : c.dc.components.interfaces = some comp) (hcount : comp.count ≠ "") :
    (∀ rows row n, s.get comp.count = .ok rows → rows.head? = some row →
      row.getValue = .ok (.int n) →
      GetCountInterfaces c (some s) = (.ok n, [ProtoCall.get comp.count]) ∧
      ∀ o, ProtoCall.walk o ∉ (GetCountInterfaces c (some s)).2) ∧
    (∀ e, s.get comp.count = .error e →
      (∀ l tr, GetInterfaces (rootComm c) (some s) = (.ok l, tr) →
        (GetCountInterfaces c (some s)).1 = .ok (l.length : Int)) ∧
      (∀ e' tr, GetInterfaces (rootComm c) (some s) = (.error e', tr) →
        (GetCountInterfaces c (some s)).1 =
          .error (.wrapped "failed to read out interfaces" e'))) := by
  constructor
  · intro rows row n hget hhead hval
    cases rows with
    | nil => simp at hhead
    | cons r rest =>
      simp only [List.head?_cons, Option.some.injEq] at hhead
      subst hhead
      refine ⟨?_, ?_⟩
      · simp [GetCountInterfaces, hcomp, hcount, hget, hval]
      · intro o
        simp [GetCountInterfaces, hcomp, hcount, hget, hval]
  · intro e hget
    constructor
    · intro l tr hGI
      simp [GetCountInterfaces, hcomp, hcount, hget, hGI]
    · intro e' tr hGI
      simp [GetCountInterfaces, hcomp, hcount, hget, hGI]

/-- Witness for C1: on `countComm`/`countSession` the direct fetch
succeeds with integer 42 and the resolver returns exactly 42 with only
the single get call. -/
theorem getCountInterfaces_count_resolution_witness :
    GetCountInterfaces countComm (some countSession) =
      (.ok 42, [ProtoCall.get "1.3.6.1.2.1.2.1.0"]) :=
  ((getCountInterfaces_count_resolution countComm countSession
      { count := "1.3.6.1.2.1.2.1.0" } rfl (by decide)).1
    [intRow] intRow 42 rfl rfl rfl).1

/-! ### C10 — indexing the first get-response row -/

/-- C10: `GetCountInterfaces` indexes `snmpResponse[0]` without an
emptiness check: a successful SNMP get with zero response rows hits an
out-of-range access (runtime panic); with at least one row the success
path never panics. -/
theorem getCountInterfaces_empty_response_out_of_range
    (c : Communicator) (s : Session) (comp : InterfacesComp)
    (hcomp : c.dc.components.interfaces = some comp) (hcount : comp.count ≠ "") :
    (s.get comp.count = .ok [] →
      GetCountInterfaces c (some s) =
        (.error (.panic "runtime error: index out of range [0]"),
          [ProtoCall.get comp.count])) ∧
    (∀ row rest, s.get comp.count = .ok (row :: rest) →
      ∀ msg, (GetCountInterfaces c (some s)).1 ≠ .error (.panic msg)) := by
  constructor
  · intro hget
    simp [GetCountInterfaces, hcomp, hcount, hget]
  · intro row rest hget msg
    cases hval : row.getValue with
    | error e => simp [GetCountInterfaces, hcomp, hcount, hget, hval]
    | ok v =>
      cases v with
      | int n => simp [GetCountInterfaces, hcomp, hcount, hget, hval]
      | str t => simp [GetCountInterfaces, hcomp, hcount, hget, hval]

/-- Witness for C10: on `countComm`/`emptyGetSession` the get succeeds
with zero rows and the resolver hits the out-of-range access. -/
theorem getCountInterfaces_empty_response_out_of_range_witness :
    GetCountInterfaces countComm (some emptyGetSession) =
      (.error (.panic "runtime error: index out of range [0]"),
        [ProtoCall.get "1.3.6.1.2.1.2.1.0"]) :=
  (getCountInterfaces_empty_response_out_of_range countComm emptyGetSession
      { count := "1.3.6.1.2.1.2.1.0" } rfl (by decide)).1 rfl

/-! ### C2 — absent capability never touches the session -/

/-- C2: for every accessor, a capability absent from the Device Class
Definition yields the not-implemented outcome with an empty protocol-call
trace — no session fetch or walk is attempted. ("absent" is: the property
leaf is nil; for `GetIfTable` the `IfTable` group is nil, for
`GetInterfaces` both `IfTable` and `Types` are nil, for
`GetCountInterfaces` the `Count` OID is the empty string.) -/
theorem accessors_unsupported_no_protocol_call :
    (∀ dc con, dc.identify.properties.vendor = none →
      GetVendor dc con = (.error (.notImplemented "no detection information available"), [])) ∧
    (∀ dc con, dc.identify.properties.model = none →
      GetModel dc con = (.error (.notImplemented "no detection information available"), [])) ∧
    (∀ dc con, dc.identify.properties.modelSeries = none →
      GetModelSeries dc con =
        (.error (.notImplemented "no detection information available"), [])) ∧
    (∀ dc con, dc.identify.properties.serialNumber = none →
      GetSerialNumber dc con =
        (.error (.notImplemented "no detection information available"), [])) ∧
    (∀ dc con, dc.identify.properties.osVersion = none →
      GetOSVersion dc con =
        (.error (.notImplemented "no detection information available"), [])) ∧
    (∀ dc con, (∀ u, dc.components.ups = some u → u.alarmLowVoltageDisconnect = none) →
      GetUPSComponentAlarmLowVoltageDisconnect dc con =
        (.error (.notImplemented "no detection information available"), [])) ∧
    (∀ dc con, (∀ u, dc.components.ups = some u → u.batteryAmperage = none) →
      GetUPSComponentBatteryAmperage dc con =
        (.error (.notImplemented "no detection information available"), [])) ∧
    (∀ dc con, (∀ u, dc.components.ups = some u → u.batteryCapacity = none) →
      GetUPSComponentBatteryCapacity dc con =
        (.error (.notImplemented "no detection information available"), [])) ∧
    (∀ dc con, (∀ u, dc.components.ups = some u → u.batteryCurrent = none) →
      GetUPSComponentBatteryCurrent dc con =
        (.error (.notImplemented "no detection information available"), [])) ∧
    (∀ dc con, (∀ u, dc.components.ups = some u → u.batteryRemainingTime = none) →
      GetUPSComponentBatteryRemainingTime dc con =
        (.error (.notImplemented "no detection information available"), [])) ∧
    (∀ dc con, (∀ u, dc.components.ups = some u → u.batteryTemperature = none) →
      GetUPSComponentBatteryTemperature dc con =
        (.error (.notImplemented "no detection information available"), [])) ∧
    (∀ dc con, (∀ u, dc.components.ups = some u → u.batteryVoltage = none) →
      GetUPSComponentBatteryVoltage dc con =
        (.error (.notImplemented "no detection information available"), [])) ∧
    (∀ dc con, (∀ u, dc.components.ups = some u → u.currentLoad = none) →
      GetUPSComponentCurrentLoad dc con =
        (.error (.notImplemented "no detection information available"), [])) ∧
    (∀ dc con, (∀ u, dc.components.ups = some u → u.mainsVoltageApplied = none) →
      GetUPSComponentMainsVoltageApplied dc con =
        (.error (.notImplemented "no detection information available"), [])) ∧
    (∀ dc con, (∀ u, dc.components.ups = some u → u.rectifierCurrent = none) →
      GetUPSComponentRectifierCurrent dc con =
        (.error (.notImplemented "no detection information available"), [])) ∧
    (∀ dc con, (∀ u, dc.components.ups = some u → u.systemVoltage = none) →
      GetUPSComponentSystemVoltage dc con =
        (.error (.notImplemented "no detection information available"), [])) ∧
    (∀ c con, (∀ comp, c.dc.components.interfaces = some comp → comp.ifTable = none) →
      GetIfTable c con = (.error (.notImplemented "not implemented"), [])) ∧
    (∀ c con,
      (∀ comp, c.dc.components.interfaces = some comp →
        comp.ifTable = none ∧ comp.types = []) →
      GetInterfaces c con = (.error (.notImplemented "not implemented"), [])) ∧
    (∀ c con, (∀ comp, c.dc.components.interfaces = some comp → comp.count = "") →
      GetCountInterfaces c con = (.error (.notImplemented "not implemented"), [])) := by
  refine ⟨?_, ?_, ?_, ?_, ?_, ?_, ?_, ?_, ?_, ?_, ?_, ?_, ?_, ?_, ?_, ?_, ?_, ?_, ?_⟩
  · intro dc con h; simp [GetVendor, h]
  · intro dc con h; simp [GetModel, h]
  · intro dc con h; simp [GetModelSeries, h]
  · intro dc con h; simp [GetSerialNumber, h]
  · intro dc con h; simp [GetOSVersion, h]
  · intro dc con h
    cases hu : dc.components.ups with
    | none => simp [GetUPSComponentAlarmLowVoltageDisconnect, hu]
    | some u => simp [GetUPSComponentAlarmLowVoltageDisconnect, hu, h u hu]
  · intro dc con h
    cases hu : dc.components.ups with
    | none => simp [GetUPSComponentBatteryAmperage, hu]
    | some u => simp [GetUPSComponentBatteryAmperage, hu, getUPSFloatProperty, h u hu]
  · intro dc con h
    cases hu : dc.components.ups with
    | none => simp [GetUPSComponentBatteryCapacity, hu]
    | some u => simp [GetUPSComponentBatteryCapacity, hu, getUPSFloatProperty, h u hu]
  · intro dc con h
    cases hu : dc.components.ups with
    | none => simp [GetUPSComponentBatteryCurrent, hu]
    | some u => simp [GetUPSComponentBatteryCurrent, hu, getUPSFloatProperty, h u hu]
  · intro dc con h
    cases hu : dc.components.ups with
    | none => simp [GetUPSComponentBatteryRemainingTime, hu]
    | some u =>
      simp [GetUPSComponentBatteryRemainingTime, hu, getUPSFloatProperty, h u hu]
  · intro dc con h
    cases hu : dc.components.ups with
    | none => simp [GetUPSComponentBatteryTemperature, hu]
    | some u => simp [GetUPSComponentBatteryTemperature, hu, getUPSFloatProperty, h u hu]
  · intro dc con h
    cases hu : dc.components.ups with
    | none => simp [GetUPSComponentBatteryVoltage, hu]
    | some u => simp [GetUPSComponentBatteryVoltage, hu, getUPSFloatProperty, h u hu]
  · intro dc con h
    cases hu : dc.components.ups with
    | none => simp [GetUPSComponentCurrentLoad, hu]
    | some u => simp [GetUPSComponentCurrentLoad, hu, getUPSFloatProperty, h u hu]
  · intro dc con h
    cases hu : dc.components.ups with
    | none => simp [GetUPSComponentMainsVoltageApplied, hu]
    | some u => simp [GetUPSComponentMainsVoltageApplied, hu, h u hu]
  · intro dc con h
    cases hu : dc.components.ups with
    | none => simp [GetUPSComponentRectifierCurrent, hu]
    | some u => simp [GetUPSComponentRectifierCurrent, hu, getUPSFloatProperty, h u hu]
  · intro dc con h
    cases hu : dc.components.ups with
    | none => simp [GetUPSComponentSystemVoltage, hu]
    | some u => simp [GetUPSComponentSystemVoltage, hu, getUPSFloatProperty, h u hu]
  · intro c con h
    cases hi : c.dc.components.interfaces with
    | none => simp [GetIfTable, hi]
    | some comp => simp [GetIfTable, hi, h comp hi]
  · intro c con h
    cases hi : c.dc.components.interfaces with
    | none => simp [GetInterfaces, hi]
    | some comp => simp [GetInterfaces, hi, (h comp hi).1, (h comp hi).2]
  · intro c con h
    cases hi : c.dc.components.interfaces with
    | none => simp [GetCountInterfaces, hi]
    | some comp => simp [GetCountInterfaces, hi, h comp hi]

/-- The all-empty device class: no capability is declared. -/
def emptyDC : DeviceClass := {}

/-- Communicator for `emptyDC`. -/
def emptyComm : Communicator := ⟨emptyDC, emptyDC⟩

/-- Witness for C2: on the all-empty device class every accessor returns
the not-implemented outcome with an empty protocol-call trace. -/
theorem accessors_unsupported_no_protocol_call_witness :
    GetVendor emptyDC none =
      (.error (.notImplemented "no detection information available"), []) ∧
    GetModel emptyDC none =
      (.error (.notImplemented "no detection information available"), []) ∧
    GetModelSeries emptyDC none =
      (.error (.notImplemented "no detection information available"), []) ∧
    GetSerialNumber emptyDC none =
      (.error (.notImplemented "no detection information available"), []) ∧
    GetOSVersion emptyDC none =
      (.error (.notImplemented "no detection information available"), []) ∧
    GetUPSComponentAlarmLowVoltageDisconnect emptyDC none =
      (.error (.notImplemented "no detection information available"), []) ∧
    GetUPSComponentBatteryAmperage emptyDC none =
      (.error (.notImplemented "no detection information available"), []) ∧
    GetUPSComponentMainsVoltageApplied emptyDC none =
      (.error (.notImplemented "no detection information available"), []) ∧
    GetIfTable emptyComm none = (.error (.notImplemented "not implemented"), []) ∧
    GetInterfaces emptyComm none = (.error (.notImplemented "not implemented"), []) ∧
    GetCountInterfaces emptyComm none =
      (.error (.notImplemented "not implemented"), []) := by
  have h := accessors_unsupported_no_protocol_call
  exact ⟨h.1 emptyDC none rfl,
    h.2.1 emptyDC none rfl,
    h.2.2.1 emptyDC none rfl,
    h.2.2.2.1 emptyDC none rfl,
    h.2.2.2.2.1 emptyDC none rfl,
    h.2.2.2.2.2.1 emptyDC none (fun u hu => by cases hu),
    h.2.2.2.2.2.2.1 emptyDC none (fun u hu => by cases hu),
    h.2.2.2.2.2.2.2.2.2.2.2.2.2.1 emptyDC none (fun u hu => by cases hu),
    h.2.2.2.2.2.2.2.2.2.2.2.2.2.2.2.2.1 emptyComm none (fun comp hc => by cases hc),
    h.2.2.2.2.2.2.2.2.2.2.2.2.2.2.2.2.2.1 emptyComm none (fun comp hc => by cases hc),
    h.2.2.2.2.2.2.2.2.2.2.2.2.2.2.2.2.2.2 emptyComm none (fun comp hc => by cases hc)⟩

/-! ### C8 — final scalar coercion -/

/-- C8: every string-valued scalar accessor returns the fetched value
coerced to string with surrounding whitespace trimmed, and every
numeric/bool accessor turns a coercion failure into an error whose
wrapping context carries the literal offending value. -/
theorem scalar_accessors_coercion :
    (∀ dc con p v tr, dc.identify.properties.vendor = some p →
      p.getProperty con = (.ok v, tr) → GetVendor dc con = (.ok (trimSpace v), tr)) ∧
    (∀ dc con p v tr, dc.identify.properties.model = some p →
      p.getProperty con = (.ok v, tr) → GetModel dc con = (.ok (trimSpace v), tr)) ∧
    (∀ dc con p v tr, dc.identify.properties.modelSeries = some p →
      p.getProperty con = (.ok v, tr) → GetModelSeries dc con = (.ok (trimSpace v), tr)) ∧
    (∀ dc con p v tr, dc.identify.properties.serialNumber = some p →
      p.getProperty con = (.ok v, tr) → GetSerialNumber dc con = (.ok (trimSpace v), tr)) ∧
    (∀ dc con p v tr, dc.identify.properties.osVersion = some p →
      p.getProperty con = (.ok v, tr) → GetOSVersion dc con = (.ok (trimSpace v), tr)) ∧
    (∀ dc con u p v tr e, dc.components.ups = some u →
      u.alarmLowVoltageDisconnect = some p → p.getProperty con = (.ok v, tr) →
      valueInt v = .error e →
      GetUPSComponentAlarmLowVoltageDisconnect dc con =
        (.error (.wrapped ("failed to convert value '" ++ v ++ "' to int") e), tr)) ∧
    (∀ dc con u p v tr e, dc.components.ups = some u →
      u.mainsVoltageApplied = some p → p.getProperty con = (.ok v, tr) →
      valueBool v = .error e →
      GetUPSComponentMainsVoltageApplied dc con =
        (.error (.wrapped ("failed to parse value '" ++ v ++ "' to bool") e), tr)) ∧
    (∀ prop attrName con p v tr e, prop = some p →
      p.getProperty con = (.ok v, tr) → valueFloat64 v = .error e →
      getUPSFloatProperty prop attrName con =
        (.error (.wrapped ("failed to convert result '" ++ v ++ "' to float64") e), tr)) ∧
    (∀ dc u, dc.components.ups = some u →
      (∀ con, GetUPSComponentBatteryAmperage dc con =
        getUPSFloatProperty u.batteryAmperage "UPSComponentBatteryAmperage" con) ∧
      (∀ con, GetUPSComponentBatteryCapacity dc con =
        getUPSFloatProperty u.batteryCapacity "UPSComponentBatteryCapacity" con) ∧
      (∀ con, GetUPSComponentBatteryCurrent dc con =
        getUPSFloatProperty u.batteryCurrent "UPSComponentBatteryCurrent" con) ∧
      (∀ con, GetUPSComponentBatteryRemainingTime dc con =
        getUPSFloatProperty u.batteryRemainingTime "UPSComponentBatteryRemainingTime" con) ∧
      (∀ con, GetUPSComponentBatteryTemperature dc con =
        getUPSFloatProperty u.batteryTemperature "UPSComponentBatteryTemperature" con) ∧
      (∀ con, GetUPSComponentBatteryVoltage dc con =
        getUPSFloatProperty u.batteryVoltage "UPSComponentBatteryVoltage" con) ∧
      (∀ con, GetUPSComponentCurrentLoad dc con =
        getUPSFloatProperty u.currentLoad "UPSComponentCurrentLoad" con) ∧
      (∀ con, GetUPSComponentRectifierCurrent dc con =
        getUPSFloatProperty u.rectifierCurrent "UPSComponentRectifierCurrent" con) ∧
      (∀ con, GetUPSComponentSystemVoltage dc con =
        getUPSFloatProperty u.systemVoltage "UPSComponentSystemVoltage" con)) := by
  refine ⟨?_, ?_, ?_, ?_, ?_, ?_, ?_, ?_, ?_⟩
  · intro dc con p v tr hp hget; simp [GetVendor, hp, hget]
  · intro dc con p v tr hp hget; simp [GetModel, hp, hget]
  · intro dc con p v tr hp hget; simp [GetModelSeries, hp, hget]
  · intro dc con p v tr hp hget; simp [GetSerialNumber, hp, hget]
  · intro dc con p v tr hp hget; simp [GetOSVersion, hp, hget]
  · intro dc con u p v tr e hu hp hget hcoerce
    simp [GetUPSComponentAlarmLowVoltageDisconnect, hu, hp, hget, hcoerce]
  · intro dc con u p v tr e hu hp hget hcoerce
    simp [GetUPSComponentMainsVoltageApplied, hu, hp, hget, hcoerce]
  · intro prop attrName con p v tr e hp hget hcoerce
    simp [getUPSFloatProperty, hp, hget, hcoerce]
  · intro dc u hu
    exact ⟨fun con => by simp [GetUPSComponentBatteryAmperage, hu],
      fun con => by simp [GetUPSComponentBatteryCapacity, hu],
      fun con => by simp [GetUPSComponentBatteryCurrent, hu],
      fun con => by simp [GetUPSComponentBatteryRemainingTime, hu],
      fun con => by simp [GetUPSComponentBatteryTemperature, hu],
      fun con => by simp [GetUPSComponentBatteryVoltage, hu],
      fun con => by simp [GetUPSComponentCurrentLoad, hu],
      fun con => by simp [GetUPSComponentRectifierCurrent, hu],
      fun con => by simp [GetUPSComponentSystemVoltage, hu]⟩

/-- A property whose fetch returns the raw value `"  Acme Corp  "`
without issuing protocol calls. -/
def acmeProp : PropertyDef := { getProperty := fun _ => (.ok "  Acme Corp  ", []) }

/-- A property whose fetch returns the non-numeric raw value `"offline"`. -/
def offlineProp : PropertyDef := { getProperty := fun _ => (.ok "offline", []) }

/-- Device class declaring a vendor property and an int-valued UPS
metric, used to witness C8. -/
def acmeDC : DeviceClass :=
  { identify := { properties := { vendor := some acmeProp } }
    components := { ups := some { alarmLowVoltageDisconnect := some offlineProp } } }

/-- Witness for C8: vendor fetch of `"  Acme Corp  "` yields the trimmed
`"Acme Corp"`, and the int accessor wraps the uncoercible literal
`"offline"` in its error. -/
theorem scalar_accessors_coercion_witness :
    GetVendor acmeDC none = (.ok "Acme Corp", []) ∧
    GetUPSComponentAlarmLowVoltageDisconnect acmeDC none =
      (.error (.wrapped "failed to convert value 'offline' to int"
        (.str "strconv.Atoi: parsing offline: invalid syntax")), []) := by
  constructor
  · have h := scalar_accessors_coercion.1 acmeDC none acmeProp "  Acme Corp  " [] rfl rfl
    rwa [show trimSpace "  Acme Corp  " = "Acme Corp" from by decide] at h
  · exact scalar_accessors_coercion.2.2.2.2.2.1 acmeDC none
      { alarmLowVoltageDisconnect := some offlineProp } offlineProp "offline" []
      (.str "strconv.Atoi: parsing offline: invalid syntax") rfl rfl rfl rfl

/-! ### C5 — per-entry skip vs. whole-walk abort -/

/-- A not-found walk outcome for one entry leaves the resulting table
exactly as if that entry were not in the group, for any accumulator. -/
theorem walkEntries_skip_notFound (con : Session) (name : String) (odef : OIDDef)
    (e : Err) (hwalk : con.walk odef.oid = .error e)
    (hnf : isNotFoundError e = true) :
    ∀ oids1 oids2 acc,
      (walkEntries con (oids1 ++ (name, odef) :: oids2) acc).1 =
        (walkEntries con (oids1 ++ oids2) acc).1 := by
  intro oids1
  induction oids1 with
  | nil =>
    intro oids2 acc
    simp [walkEntries, hwalk, hnf]
  | cons hd tl ih =>
    intro oids2 acc
    obtain ⟨n', od'⟩ := hd
    cases hw : con.walk od'.oid with
    | error e' =>
      cases hnf' : isNotFoundError e' with
      | true => simpa [walkEntries, hw, hnf'] using ih oids2 acc
      | false => simp [walkEntries, hw, hnf']
    | ok rows =>
      cases hf : foldRows od' n' acc rows with
      | error e' => simp [walkEntries, hw, hf]
      | ok acc' => simpa [walkEntries, hw, hf] using ih oids2 acc'

/-- Any hard (non-not-found) walk failure of an entry anywhere in the
group makes the whole walk return an error, for any accumulator. -/
theorem walkEntries_error_of_hard_failure (con : Session) (name : String)
    (odef : OIDDef) (e : Err) (hwalk : con.walk odef.oid = .error e)
    (hnf : isNotFoundError e = false) :
    ∀ oids acc, (name, odef) ∈ oids →
      ∃ e', (walkEntries con oids acc).1 = .error e' := by
  intro oids
  induction oids with
  | nil => intro acc hmem; cases hmem
  | cons hd tl ih =>
    intro acc hmem
    obtain ⟨n', od'⟩ := hd
    rcases List.mem_cons.mp hmem with heq | hmem'
    · obtain ⟨h1, h2⟩ := Prod.mk.injEq .. ▸ heq
      subst h1; subst h2
      exact ⟨.wrapped "failed to get oid value" e, by simp [walkEntries, hwalk, hnf]⟩
    · cases hw : con.walk od'.oid with
      | error e' =>
        cases hnf' : isNotFoundError e' with
        | true =>
          obtain ⟨e'', h⟩ := ih acc hmem'
          exact ⟨e'', by simpa [walkEntries, hw, hnf'] using h⟩
        | false =>
          exact ⟨.wrapped "failed to get oid value" e', by simp [walkEntries, hw, hnf']⟩
      | ok rows =>
        cases hf : foldRows od' n' acc rows with
        | error e' => exact ⟨e', by simp [walkEntries, hw, hf]⟩
        | ok acc' =>
          obtain ⟨e'', h⟩ := ih acc' hmem'
          exact ⟨e'', by simpa [walkEntries, hw, hf] using h⟩

/-- C5: in `getValuesBySNMPWalk`, a not-found outcome on one named
entry's walk only removes that entry (every other entry of the group is
resolved as if the skipped one were absent); any other walk failure
aborts the whole walk — no table is returned, and for the entry reached
the error is the wrapped session error. -/
theorem walker_notFound_skips_hard_failure_aborts :
    (∀ (con : Session) oids1 oids2 name odef e, con.walk odef.oid = .error e →
      isNotFoundError e = true →
      (getValuesBySNMPWalk (some con) (oids1 ++ (name, odef) :: oids2)).1 =
        (getValuesBySNMPWalk (some con) (oids1 ++ oids2)).1) ∧
    (∀ (con : Session) oids name odef e, (name, odef) ∈ oids →
      con.walk odef.oid = .error e → isNotFoundError e = false →
      ∃ e', (getValuesBySNMPWalk (some con) oids).1 = .error e') ∧
    (∀ (con : Session) rest name odef e, con.walk odef.oid = .error e →
      isNotFoundError e = false →
      getValuesBySNMPWalk (some con) ((name, odef) :: rest) =
        (.error (.wrapped "failed to get oid value" e), [.walk odef.oid])) := by
  refine ⟨?_, ?_, ?_⟩
  · intro con oids1 oids2 name odef e hwalk hnf
    simpa [getValuesBySNMPWalk] using
      walkEntries_skip_notFound con name odef e hwalk hnf oids1 oids2 []
  · intro con oids name odef e hmem hwalk hnf
    simpa [getValuesBySNMPWalk] using
      walkEntries_error_of_hard_failure con name odef e hwalk hnf oids [] hmem
  · intro con rest name odef e hwalk hnf
    simp [getValuesBySNMPWalk, walkEntries, hwalk, hnf]

/-- An interface-description OID definition with identity interpretation
and operator chain. -/
def descrDef : OIDDef :=
  { oid := "1.3.6.1.2.1.2.2.1.2", cfg := "", operators := fun v => .ok v }

/-- An admin-status OID definition, used as the entry that is absent on
the device. -/
def statusDef : OIDDef :=
  { oid := "1.3.6.1.2.1.2.2.1.7", cfg := "", operators := fun v => .ok v }

/-- A response row of the description walk at index 1. -/
def descrRow : SnmpRow :=
  { oid := "1.3.6.1.2.1.2.2.1.2.1", getValue := .ok (.str "eth0")
    valueBy := fun _ => .ok "eth0" }

/-- A session where the admin-status subtree is absent (not-found) while
the description subtree walks successfully. -/
def skipSession : Session :=
  { walk := fun o =>
      if o = "1.3.6.1.2.1.2.2.1.2" then .ok [descrRow]
      else .error (.notFound "no such subtree")
    get := fun _ => .error (.notFound "no such object") }

/-- A session where the description walk fails hard (timeout). -/
def hardFailSession : Session :=
  { walk := fun _ => .error (.str "request timeout")
    get := fun _ => .error (.str "request timeout") }

/-- Witness for C5: with the admin-status entry not present on the
device, the two-entry group resolves to exactly the one-entry group's
table (the sibling entry is still resolved); a hard walk failure yields
an error and no table. -/
theorem walker_notFound_skips_hard_failure_aborts_witness :
    (getValuesBySNMPWalk (some skipSession)
        [("ifAdminStatus", statusDef), ("ifDescr", descrDef)]).1 =
      (getValuesBySNMPWalk (some skipSession) [("ifDescr", descrDef)]).1 ∧
    getValuesBySNMPWalk (some hardFailSession) [("ifDescr", descrDef)] =
      (.error (.wrapped "failed to get oid value" (.str "request timeout")),
        [.walk "1.3.6.1.2.1.2.2.1.2"]) := by
  constructor
  · exact walker_notFound_skips_hard_failure_aborts.1 skipSession []
      [("ifDescr", descrDef)] "ifAdminStatus" statusDef (.notFound "no such subtree")
      rfl rfl
  · exact walker_notFound_skips_hard_failure_aborts.2.2 hardFailSession []
      "ifDescr" descrDef (.str "request timeout") rfl rfl

/-! ### C6 — only non-empty, normalized values are stored -/

/-- `List.lookup` on a cons cell, in if-then-else form. -/
theorem lookup_cons_ite {β : Type} (a k : String) (b : β) (es : List (String × β)) :
    List.lookup a ((k, b) :: es) = if a = k then some b else List.lookup a es := by
  rw [List.lookup_cons]
  by_cases h : a = k
  · simp [h]
  · simp [h, beq_false_of_ne h]

/-- `tableLookup` on a cons cell, in if-then-else form. -/
theorem tableLookup_cons (i : String) (e : RawEntry) (t : RawTable) (i' n' : String) :
    tableLookup ((i, e) :: t) i' n' =
      if i' = i then List.lookup n' e else tableLookup t i' n' := by
  unfold tableLookup
  rw [lookup_cons_ite]
  by_cases h : i' = i <;> simp [h]

/-- `updEntry` on a cons cell whose key matches. -/
theorem updEntry_cons_eq (n w v : String) (tl : RawEntry) :
    updEntry ((n, w) :: tl) n v = (n, v) :: tl := by
  conv_lhs => rw [updEntry]
  rw [if_pos rfl]

/-- `updEntry` on a cons cell whose key differs. -/
theorem updEntry_cons_ne (n w name v : String) (tl : RawEntry) (h : n ≠ name) :
    updEntry ((n, w) :: tl) name v = (n, w) :: updEntry tl name v := by
  conv_lhs => rw [updEntry]
  rw [if_neg h]

/-- `updTable` on a cons cell whose index matches. -/
theorem updTable_cons_eq (i : String) (e : RawEntry) (tl : RawTable) (name v : String) :
    updTable ((i, e) :: tl) i name v = (i, updEntry e name v) :: tl := by
  conv_lhs => rw [updTable]
  rw [if_pos rfl]

/-- `updTable` on a cons cell whose index differs. -/
theorem updTable_cons_ne (i : String) (e : RawEntry) (tl : RawTable)
    (idx name v : String) (h : i ≠ idx) :
    updTable ((i, e) :: tl) idx name v = (i, e) :: updTable tl idx name v := by
  conv_lhs => rw [updTable]
  rw [if_neg h]

/-- Lookup after a raw-entry store: the stored name yields the new value,
any other name is untouched. -/
theorem lookup_updEntry (name v n' : String) :
    ∀ e : RawEntry, List.lookup n' (updEntry e name v) =
      if n' = name then some v else List.lookup n' e := by
  intro e
  induction e with
  | nil => simp [updEntry, lookup_cons_ite]
  | cons hd tl ih =>
    obtain ⟨n, w⟩ := hd
    by_cases hn : n = name
    · subst hn
      rw [updEntry_cons_eq, lookup_cons_ite, lookup_cons_ite]
      split_ifs <;> simp_all
    · rw [updEntry_cons_ne _ _ _ _ _ hn, lookup_cons_ite, lookup_cons_ite, ih]
      split_ifs <;> simp_all

/-- Lookup after a Grouped Raw Table store: the stored `(idx, name)` slot
yields the new value, every other slot is untouched. -/
theorem tableLookup_updTable (idx name v i' n' : String) :
    ∀ t : RawTable, tableLookup (updTable t idx name v) i' n' =
      if i' = idx ∧ n' = name then some v else tableLookup t i' n' := by
  intro t
  induction t with
  | nil =>
    simp only [updTable]
    rw [tableLookup_cons, lookup_cons_ite]
    split_ifs <;> simp_all [tableLookup]
  | cons hd tl ih =>
    obtain ⟨i, e⟩ := hd
    by_cases hik : i = idx
    · subst hik
      rw [updTable_cons_eq, tableLookup_cons, tableLookup_cons, lookup_updEntry]
      split_ifs <;> simp_all
    · rw [updTable_cons_ne _ _ _ _ _ _ hik, tableLookup_cons, tableLookup_cons, ih]
      split_ifs <;> simp_all

/-- The provenance of one stored Grouped Raw Table binding: it came from
a response row of a successful walk of a named entry of the group, whose
interpreted value was non-empty and was passed through that entry's
operator chain, keyed by the row OID's trailing segment. -/
def ValidBinding (con : Session) (oids : OIDGroup) (idx name v : String) : Prop :=
  ∃ odef rows row res,
    (name, odef) ∈ oids ∧
    con.walk odef.oid = .ok rows ∧ row ∈ rows ∧
    row.valueBy odef.cfg = .ok res ∧ res ≠ "" ∧
    odef.operators res = .ok v ∧
    idx = lastSegment row.oid

/-- Every binding of the table satisfies the provenance predicate. -/
def TableValid (con : Session) (oids : OIDGroup) (t : RawTable) : Prop :=
  ∀ idx name v, tableLookup t idx name = some v → ValidBinding con oids idx name v

/-- `processRow` preserves binding provenance: the only binding it can
add is the row's own non-empty interpreted value passed through the
operator chain. -/
theorem processRow_valid (con : Session) (oids : OIDGroup) (odef : OIDDef)
    (name : String) (acc : RawTable) (row : SnmpRow) (allRows : List SnmpRow)
    (hmem : (name, odef) ∈ oids) (hwalk : con.walk odef.oid = .ok allRows)
    (hrow : row ∈ allRows) (hacc : TableValid con oids acc) :
    ∀ acc', processRow odef name acc row = .ok acc' → TableValid con oids acc' := by
  intro acc' h
  unfold processRow at h
  split at h
  · cases h
  next res hv =>
    split at h
    next hres => cases h; exact hacc
    next hres =>
      split at h
      · cases h
      next resN hop =>
        cases h
        intro idx n v hlk
        rw [tableLookup_updTable] at hlk
        by_cases hcase : idx = lastSegment row.oid ∧ n = name
        · rw [if_pos hcase] at hlk
          obtain ⟨h1, h2⟩ := hcase
          cases hlk
          subst h1; subst h2
          exact ⟨odef, allRows, row, res, hmem, hwalk, hrow, hv, hres, hop, rfl⟩
        · rw [if_neg hcase] at hlk
          exact hacc idx n v hlk

/-- `foldRows` preserves binding provenance along one successful walk. -/
theorem foldRows_valid (con : Session) (oids : OIDGroup) (odef : OIDDef)
    (name : String) (allRows : List SnmpRow)
    (hmem : (name, odef) ∈ oids) (hwalk : con.walk odef.oid = .ok allRows) :
    ∀ rows acc, (∀ r ∈ rows, r ∈ allRows) → TableValid con oids acc →
      ∀ acc', foldRows odef name acc rows = .ok acc' → TableValid con oids acc' := by
  intro rows
  induction rows with
  | nil =>
    intro acc _ hacc acc' h
    cases h
    exact hacc
  | cons row rest ih =>
    intro acc hsub hacc acc' h
    unfold foldRows at h
    split at h
    · cases h
    next acc1 hp =>
      exact ih acc1 (fun r hr => hsub r (List.mem_cons_of_mem _ hr))
        (processRow_valid con oids odef name acc row allRows hmem hwalk
          (hsub row (List.mem_cons_self _ _)) hacc acc1 hp) acc' h

/-- `walkEntries` preserves binding provenance (processing any sublist of
the full group). -/
theorem walkEntries_valid (con : Session) (oidsFull : OIDGroup) :
    ∀ oids acc, (∀ p ∈ oids, p ∈ oidsFull) → TableValid con oidsFull acc →
      ∀ t, (walkEntries con oids acc).1 = .ok t → TableValid con oidsFull t := by
  intro oids
  induction oids with
  | nil =>
    intro acc _ hacc t h
    simp only [walkEntries] at h
    cases h
    exact hacc
  | cons hd tl ih =>
    intro acc hsub hacc t h
    obtain ⟨name, odef⟩ := hd
    unfold walkEntries at h
    split at h
    next e hw =>
      split at h
      · exact ih acc (fun p hp => hsub p (List.mem_cons_of_mem _ hp)) hacc t h
      · cases h
    next rows hw =>
      split at h
      · cases h
      next acc' hf =>
        have hmem : (name, odef) ∈ oidsFull := hsub _ (List.mem_cons_self _ _)
        exact ih acc' (fun p hp => hsub p (List.mem_cons_of_mem _ hp))
          (foldRows_valid con oidsFull odef name rows hmem hw rows acc
            (fun r hr => hr) hacc acc' hf) t h

/-- C6: every `(index, entry-name)` slot of a Grouped Raw Table produced
by `getValuesBySNMPWalk` holds a value only when the originating row's
interpreted value was non-empty, and the stored value is that value
passed through the entry's operator chain; empty interpreted rows are
never stored. -/
theorem walker_stores_only_nonEmpty_normalized
    (con : Session) (oids : OIDGroup) (t : RawTable) (tr : List ProtoCall)
    (idx name v : String)
    (h : getValuesBySNMPWalk (some con) oids = (.ok t, tr))
    (hlk : tableLookup t idx name = some v) :
    ValidBinding con oids idx name v := by
  have ht : (walkEntries con oids []).1 = .ok t := by
    simpa [getValuesBySNMPWalk] using congrArg Prod.fst h
  exact walkEntries_valid con oids oids [] (fun p hp => hp)
    (fun i n w hw => by simp [tableLookup, List.lookup] at hw) t ht idx name v hlk

/-- Witness for C6: the description walk of `skipSession` stores exactly
the binding `("1", "ifDescr") ↦ "eth0"`, whose provenance the theorem
certifies. -/
theorem walker_stores_only_nonEmpty_normalized_witness :
    getValuesBySNMPWalk (some skipSession) [("ifDescr", descrDef)] =
      (.ok [("1", [("ifDescr", "eth0")])], [.walk "1.3.6.1.2.1.2.2.1.2"]) ∧
    ValidBinding skipSession [("ifDescr", descrDef)] "1" "ifDescr" "eth0" :=
  ⟨rfl, walker_stores_only_nonEmpty_normalized skipSession [("ifDescr", descrDef)]
    [("1", [("ifDescr", "eth0")])] [.walk "1.3.6.1.2.1.2.2.1.2"] "1" "ifDescr" "eth0"
    rfl rfl⟩

/-! ### Characterization of the tolerant structural decode -/

/-- `decIfIndex` touches only the `ifIndex` field: absent key leaves it,
a present key sets it to the parsed number. -/
theorem decIfIndex_spec (m : RawEntry) (r r₁ : Interface)
    (h : decIfIndex m r = .ok r₁) :
    r₁.ifDescr = r.ifDescr ∧ r₁.ifSpeed = r.ifSpeed ∧ r₁.ifType = r.ifType ∧
    (List.lookup "ifIndex" m = none → r₁.ifIndex = r.ifIndex) ∧
    (∀ s, List.lookup "ifIndex" m = some s →
      ∃ k, parseNatStr s = some k ∧ r₁.ifIndex = some k) := by
  unfold decIfIndex at h
  split at h
  next hnone =>
    cases h
    exact ⟨rfl, rfl, rfl, fun _ => rfl, fun s hs => by rw [hnone] at hs; cases hs⟩
  next s hs =>
    split at h
    next k hk =>
      cases h
      refine ⟨rfl, rfl, rfl, ?_, ?_⟩
      · intro hn; rw [hn] at hs; cases hs
      · intro s' hs'
        rw [hs] at hs'
        cases hs'
        exact ⟨k, hk, rfl⟩
    · cases h

/-- `decIfDescr` touches only the `ifDescr` field. -/
theorem decIfDescr_spec (m : RawEntry) (r r₁ : Interface)
    (h : decIfDescr m r = .ok r₁) :
    r₁.ifIndex = r.ifIndex ∧ r₁.ifSpeed = r.ifSpeed ∧ r₁.ifType = r.ifType ∧
    (List.lookup "ifDescr" m = none → r₁.ifDescr = r.ifDescr) ∧
    (∀ s, List.lookup "ifDescr" m = some s → r₁.ifDescr = some s) := by
  unfold decIfDescr at h
  split at h
  next hnone =>
    cases h
    exact ⟨rfl, rfl, rfl, fun _ => rfl, fun s hs => by rw [hnone] at hs; cases hs⟩
  next s hs =>
    cases h
    refine ⟨rfl, rfl, rfl, ?_, ?_⟩
    · intro hn; rw [hn] at hs; cases hs
    · intro s' hs'
      rw [hs] at hs'
      cases hs'
      rfl

/-- `decIfSpeed` touches only the `ifSpeed` field. -/
theorem decIfSpeed_spec (m : RawEntry) (r r₁ : Interface)
    (h : decIfSpeed m r = .ok r₁) :
    r₁.ifIndex = r.ifIndex ∧ r₁.ifDescr = r.ifDescr ∧ r₁.ifType = r.ifType ∧
    (List.lookup "ifSpeed" m = none → r₁.ifSpeed = r.ifSpeed) ∧
    (∀ s, List.lookup "ifSpeed" m = some s →
      ∃ k, parseNatStr s = some k ∧ r₁.ifSpeed = some k) := by
  unfold decIfSpeed at h
  split at h
  next hnone =>
    cases h
    exact ⟨rfl, rfl, rfl, fun _ => rfl, fun s hs => by rw [hnone] at hs; cases hs⟩
  next s hs =>
    split at h
    next k hk =>
      cases h
      refine ⟨rfl, rfl, rfl, ?_, ?_⟩
      · intro hn; rw [hn] at hs; cases hs
      · intro s' hs'
        rw [hs] at hs'
        cases hs'
        exact ⟨k, hk, rfl⟩
    · cases h

/-- `decIfType` touches only the `ifType` field. -/
theorem decIfType_spec (m : RawEntry) (r r₁ : Interface)
    (h : decIfType m r = .ok r₁) :
    r₁.ifIndex = r.ifIndex ∧ r₁.ifDescr = r.ifDescr ∧ r₁.ifSpeed = r.ifSpeed ∧
    (List.lookup "ifType" m = none → r₁.ifType = r.ifType) ∧
    (∀ s, List.lookup "ifType" m = some s → r₁.ifType = some s) := by
  unfold decIfType at h
  split at h
  next hnone =>
    cases h
    exact ⟨rfl, rfl, rfl, fun _ => rfl, fun s hs => by rw [hnone] at hs; cases hs⟩
  next s hs =>
    cases h
    refine ⟨rfl, rfl, rfl, ?_, ?_⟩
    · intro hn; rw [hn] at hs; cases hs
    · intro s' hs'
      rw [hs] at hs'
      cases hs'
      rfl

/-- Full characterization of `mapstructure.WeakDecode` onto an existing
record: fields whose key is absent from the entry keep their previous
value; fields whose key is present are set to the (coerced) payload
value. -/
theorem weakDecodeInto_spec (m : RawEntry) (r r' : Interface)
    (h : weakDecodeInto m r = .ok r') :
    (List.lookup "ifIndex" m = none → r'.ifIndex = r.ifIndex) ∧
    (∀ s, List.lookup "ifIndex" m = some s →
      ∃ k, parseNatStr s = some k ∧ r'.ifIndex = some k) ∧
    (List.lookup "ifDescr" m = none → r'.ifDescr = r.ifDescr) ∧
    (∀ s, List.lookup "ifDescr" m = some s → r'.ifDescr = some s) ∧
    (List.lookup "ifSpeed" m = none → r'.ifSpeed = r.ifSpeed) ∧
    (∀ s, List.lookup "ifSpeed" m = some s →
      ∃ k, parseNatStr s = some k ∧ r'.ifSpeed = some k) ∧
    (List.lookup "ifType" m = none → r'.ifType = r.ifType) ∧
    (∀ s, List.lookup "ifType" m = some s → r'.ifType = some s) := by
  unfold weakDecodeInto at h
  simp only [bind, Except.bind] at h
  split at h
  · cases h
  next r1 h1 =>
    split at h
    · cases h
    next r2 h2 =>
      split at h
      · cases h
      next r3 h3 =>
        obtain ⟨d1, s1, t1, inone1, isome1⟩ := decIfIndex_spec m r r1 h1
        obtain ⟨i2, s2, t2, dnone2, dsome2⟩ := decIfDescr_spec m r1 r2 h2
        obtain ⟨i3, d3, t3, snone3, ssome3⟩ := decIfSpeed_spec m r2 r3 h3
        obtain ⟨i4, d4, s4, tnone4, tsome4⟩ := decIfType_spec m r3 r' h
        refine ⟨?_, ?_, ?_, ?_, ?_, ?_, ?_, ?_⟩
        · intro hn; rw [i4, i3, i2, inone1 hn]
        · intro s hs
          obtain ⟨k, hk, hr1⟩ := isome1 s hs
          exact ⟨k, hk, by rw [i4, i3, i2, hr1]⟩
        · intro hn; rw [d4, d3, dnone2 hn, d1]
        · intro s hs; rw [d4, d3, dsome2 s hs]
        · intro hn; rw [s4, snone3 hn, s2, s1]
        · intro s hs
          obtain ⟨k, hk, hr3⟩ := ssome3 s hs
          exact ⟨k, hk, by rw [s4, hr3]⟩
        · intro hn; rw [tnone4 hn, t3, t2, t1]
        · intro s hs; exact tsome4 s hs

/-! ### C7 — overwrite-only-present-fields merge -/

/-- The frame relation of one type-override merge step: the base record
has a populated `IfIndex`; if the override's Grouped Raw Table has no
entry for that index the record is returned unchanged, and if it has one
then every field whose key is absent from that entry's payload keeps its
base value. -/
def OverrideFrame (raw : RawTable) (r r' : Interface) : Prop :=
  ∃ n, r.ifIndex = some n ∧
    (List.lookup (toString n) raw = none → r' = r) ∧
    (∀ m, List.lookup (toString n) raw = some m →
      (List.lookup "ifIndex" m = none → r'.ifIndex = r.ifIndex) ∧
      (List.lookup "ifDescr" m = none → r'.ifDescr = r.ifDescr) ∧
      (List.lookup "ifSpeed" m = none → r'.ifSpeed = r.ifSpeed) ∧
      (List.lookup "ifType" m = none → r'.ifType = r.ifType))

/-- C7: a successful application of one type-override group relates base
records to merged records positionally (same length, same order), and
each merged record only overwrites the fields present in the override
entry for its `IfIndex`; records without a matching entry — in particular
every record whose index differs from the overridden ones — are returned
unchanged. -/
theorem mergeTypeOverride_frame (raw : RawTable) :
    ∀ recs out, applyOverride raw recs = .ok out →
      List.Forall₂ (OverrideFrame raw) recs out := by
  intro recs
  induction recs with
  | nil =>
    intro out h
    cases h
    exact List.Forall₂.nil
  | cons r rest ih =>
    intro out h
    unfold applyOverride at h
    split at h
    · cases h
    next n hn =>
      split at h
      next hlk =>
        split at h
        · cases h
        next rs hrest =>
          cases h
          exact List.Forall₂.cons
            ⟨n, hn, fun _ => rfl, fun m hm => by rw [hlk] at hm; cases hm⟩
            (ih rs hrest)
      next m hlk =>
        split at h
        · cases h
        next r' hdec =>
          split at h
          · cases h
          next rs hrest =>
            cases h
            refine List.Forall₂.cons ⟨n, hn, ?_, ?_⟩ (ih rs hrest)
            · intro hnone; rw [hlk] at hnone; cases hnone
            · intro m' hm'
              rw [hlk] at hm'
              cases hm'
              obtain ⟨inone, _, dnone, _, snone, _, tnone, _⟩ :=
                weakDecodeInto_spec m r r' hdec
              exact ⟨inone, dnone, snone, tnone⟩

/-- The two-record base table of the spec's round-trip scenario. -/
def baseRec1 : Interface :=
  { ifIndex := some 1, ifDescr := some "eth0", ifSpeed := some 1000 }

/-- Second base record. -/
def baseRec2 : Interface := { ifIndex := some 2, ifDescr := some "eth1" }

/-- A type-override Grouped Raw Table supplying `ifSpeed` for index 1
only. -/
def speedOverrideRaw : RawTable := [("1", [("ifSpeed", "10000")])]

/-- Witness for C7: merging the index-1 speed override changes only
record 1's `ifSpeed` (10000), leaves its other fields, and leaves record
2 bit-identical; the frame relation is certified by the theorem. -/
theorem mergeTypeOverride_frame_witness :
    applyOverride speedOverrideRaw [baseRec1, baseRec2] =
      .ok [{ ifIndex := some 1, ifDescr := some "eth0", ifSpeed := some 10000 },
        baseRec2] ∧
    List.Forall₂ (OverrideFrame speedOverrideRaw) [baseRec1, baseRec2]
      [{ ifIndex := some 1, ifDescr := some "eth0", ifSpeed := some 10000 }, baseRec2] :=
  ⟨rfl, mergeTypeOverride_frame speedOverrideRaw [baseRec1, baseRec2]
    [{ ifIndex := some 1, ifDescr := some "eth0", ifSpeed := some 10000 }, baseRec2] rfl⟩

/-! ### C9 — declaration order, later group wins -/

/-- The application of type-override groups composes in list order: the
groups of `ts1` are applied before those of `ts2`. -/
theorem applyTypes_append (con : Option Session) :
    ∀ ts1 ts2 recs, (applyTypes con (ts1 ++ ts2) recs).1 =
      match (applyTypes con ts1 recs).1 with
      | .error e => .error e
      | .ok mid => (applyTypes con ts2 mid).1 := by
  intro ts1
  induction ts1 with
  | nil => intro ts2 recs; simp [applyTypes]
  | cons t ts ih =>
    intro ts2 recs
    cases hw : getValuesBySNMPWalk con t.values with
    | mk res tr =>
      cases res with
      | error e => simp [applyTypes, hw]
      | ok raw =>
        cases ha : applyOverride raw recs with
        | error e => simp [applyTypes, hw, ha]
        | ok recs' => simp [applyTypes, hw, ha, ih ts2 recs']

/-- The overwrite relation of one type-override merge step: fields
present in the override entry for the record's `IfIndex` are set to the
(coerced) payload values, regardless of their previous contents. -/
def OverrideSets (raw : RawTable) (r r' : Interface) : Prop :=
  ∀ n m, r.ifIndex = some n → List.lookup (toString n) raw = some m →
    (∀ s k, List.lookup "ifIndex" m = some s → parseNatStr s = some k →
      r'.ifIndex = some k) ∧
    (∀ s, List.lookup "ifDescr" m = some s → r'.ifDescr = some s) ∧
    (∀ s k, List.lookup "ifSpeed" m = some s → parseNatStr s = some k →
      r'.ifSpeed = some k) ∧
    (∀ s, List.lookup "ifType" m = some s → r'.ifType = some s)

/-- A successful merge of one override group sets, in each record, every
field present in the matching override entry. -/
theorem applyOverride_sets (raw : RawTable) :
    ∀ recs out, applyOverride raw recs = .ok out →
      List.Forall₂ (OverrideSets raw) recs out := by
  intro recs
  induction recs with
  | nil =>
    intro out h
    cases h
    exact List.Forall₂.nil
  | cons r rest ih =>
    intro out h
    unfold applyOverride at h
    split at h
    · cases h
    next n hn =>
      split at h
      next hlk =>
        split at h
        · cases h
        next rs hrest =>
          cases h
          refine List.Forall₂.cons ?_ (ih rs hrest)
          intro n' m hn' hm
          rw [hn] at hn'
          cases hn'
          rw [hlk] at hm
          cases hm
      next m hlk =>
        split at h
        · cases h
        next r' hdec =>
          split at h
          · cases h
          next rs hrest =>
            cases h
            refine List.Forall₂.cons ?_ (ih rs hrest)
            intro n' m' hn' hm'
            rw [hn] at hn'
            cases hn'
            rw [hlk] at hm'
            cases hm'
            obtain ⟨_, isome, _, dsome, _, ssome, _, tsome⟩ :=
              weakDecodeInto_spec m r r' hdec
            refine ⟨?_, dsome, ?_, tsome⟩
            · intro s k hs hk
              obtain ⟨k', hk', hr'⟩ := isome s hs
              rw [hk] at hk'
              cases hk'
              exact hr'
            · intro s k hs hk
              obtain ⟨k', hk', hr'⟩ := ssome s hs
              rw [hk] at hk'
              cases hk'
              exact hr'

/-- C9: type-override groups are applied in declaration order (the result
of `ts1 ++ ts2` is the result of `ts1` fed into `ts2`), and in a
successful application ending with group `t`, the final records are the
result of merging `t`'s walked Grouped Raw Table into the intermediate
records of all earlier groups — every field present in `t`'s payload for
an index holds `t`'s (coerced) value in the returned record, so the
later-declared group wins on conflicts. -/
theorem typeOverrides_declared_order_later_wins (con : Option Session) :
    (∀ ts1 ts2 recs, (applyTypes con (ts1 ++ ts2) recs).1 =
      match (applyTypes con ts1 recs).1 with
      | .error e => .error e
      | .ok mid => (applyTypes con ts2 mid).1) ∧
    (∀ ts t recs out, (applyTypes con (ts ++ [t]) recs).1 = .ok out →
      ∃ mid raw tr, (applyTypes con ts recs).1 = .ok mid ∧
        getValuesBySNMPWalk con t.values = (.ok raw, tr) ∧
        applyOverride raw mid = .ok out ∧
        List.Forall₂ (OverrideSets raw) mid out) := by
  constructor
  · exact applyTypes_append con
  · intro ts t recs out h
    rw [applyTypes_append con ts [t] recs] at h
    cases hm : (applyTypes con ts recs).1 with
    | error e => rw [hm] at h; simp at h
    | ok mid =>
      rw [hm] at h
      simp only at h
      cases hw : getValuesBySNMPWalk con t.values with
      | mk res tr =>
        cases res with
        | error e => simp [applyTypes, hw] at h
        | ok raw =>
          cases ha : applyOverride raw mid with
          | error e => simp [applyTypes, hw, ha] at h
          | ok out' =>
            simp [applyTypes, hw, ha] at h
            subst h
            exact ⟨mid, raw, tr, rfl, rfl, ha, applyOverride_sets raw mid out' ha⟩

/-- First type-override column definition (walked at subtree `T.1`). -/
def typeOid1 : OIDDef := { oid := "T.1", cfg := "", operators := fun v => .ok v }

/-- Second type-override column definition (walked at subtree `T.2`). -/
def typeOid2 : OIDDef := { oid := "T.2", cfg := "", operators := fun v => .ok v }

/-- Row of the first override walk: index 1, value 5000. -/
def typeRow1 : SnmpRow :=
  { oid := "T.1.1", getValue := .ok (.str "5000"), valueBy := fun _ => .ok "5000" }

/-- Row of the second override walk: index 1, value 7000. -/
def typeRow2 : SnmpRow :=
  { oid := "T.2.1", getValue := .ok (.str "7000"), valueBy := fun _ => .ok "7000" }

/-- A session serving both override subtrees. -/
def twoTypeSession : Session :=
  { walk := fun o =>
      if o = "T.1" then .ok [typeRow1]
      else if o = "T.2" then .ok [typeRow2]
      else .error (.notFound "no such subtree")
    get := fun _ => .error (.notFound "no such object") }

/-- First declared type group: overrides `ifSpeed`. -/
def typeDef1 : TypeDef := ⟨[("ifSpeed", typeOid1)]⟩

/-- Second declared type group: also overrides `ifSpeed`. -/
def typeDef2 : TypeDef := ⟨[("ifSpeed", typeOid2)]⟩

/-- Witness for C9: two declared groups override `ifSpeed` of record 1
(5000 then 7000); the applied result carries the later group's 7000, and
the theorem's decomposition certifies it. -/
theorem typeOverrides_declared_order_later_wins_witness :
    (applyTypes (some twoTypeSession) [typeDef1, typeDef2] [baseRec1]).1 =
      .ok [{ ifIndex := some 1, ifDescr := some "eth0", ifSpeed := some 7000 }] ∧
    ∃ mid raw tr,
      (applyTypes (some twoTypeSession) [typeDef1] [baseRec1]).1 = .ok mid ∧
      getValuesBySNMPWalk (some twoTypeSession) typeDef2.values = (.ok raw, tr) ∧
      applyOverride raw mid =
        .ok [{ ifIndex := some 1, ifDescr := some "eth0", ifSpeed := some 7000 }] ∧
      List.Forall₂ (OverrideSets raw) mid
        [{ ifIndex := some 1, ifDescr := some "eth0", ifSpeed := some 7000 }] :=
  ⟨rfl, (typeOverrides_declared_order_later_wins (some twoTypeSession)).2
    [typeDef1] typeDef2 [baseRec1]
    [{ ifIndex := some 1, ifDescr := some "eth0", ifSpeed := some 7000 }] rfl⟩

/-! ### C3 — ordering of the base table -/

/-- Lists of at most one element are vacuously pairwise-related. -/
theorem pairwise_of_length_le_one {r : Interface → Interface → Prop} :
    ∀ l : List Interface, l.length ≤ 1 → List.Pairwise r l := by
  intro l h
  match l with
  | [] => exact List.Pairwise.nil
  | [x] => simp
  | x :: y :: xs => simp at h

/-- A successful `sortStep` returns a list sorted non-decreasingly by the
numeric `IfIndex` key. -/
theorem sortStep_sorted (recs l : List Interface) (h : sortStep recs = .ok l) :
    List.Pairwise ifLe l := by
  unfold sortStep at h
  split at h
  next hlen =>
    cases h
    exact pairwise_of_length_le_one recs hlen
  · split at h
    · cases h
      exact List.sorted_insertionSort ifLe recs
    · cases h

/-- A successful `sortStep` on two or more records certifies that every
record's `IfIndex` is populated. -/
theorem sortStep_all_isSome (recs l : List Interface) (h : sortStep recs = .ok l)
    (hlen : 1 < l.length) : ∀ r ∈ l, r.ifIndex.isSome := by
  unfold sortStep at h
  split at h
  next hl =>
    cases h
    omega
  · split at h
    next hall =>
      cases h
      intro r hr
      have : r ∈ recs := ((List.perm_insertionSort ifLe recs).mem_iff).mp hr
      exact List.all_eq_true.mp hall r this
    · cases h

/-- A non-decreasingly sorted record list with populated and
pairwise-distinct `IfIndex` values is strictly ascending. -/
theorem pairwise_lt_of_le_nodup :
    ∀ l : List Interface, List.Pairwise ifLe l → (∀ r ∈ l, r.ifIndex.isSome) →
      (l.map Interface.ifIndex).Nodup →
      List.Pairwise (fun a b => ifKey a < ifKey b) l := by
  intro l
  induction l with
  | nil => intro _ _ _; exact List.Pairwise.nil
  | cons x xs ih =>
    intro hs hsome hnd
    rw [List.pairwise_cons] at hs
    rw [List.map_cons, List.nodup_cons] at hnd
    refine List.Pairwise.cons ?_ (ih hs.2 (fun r hr => hsome r (List.mem_cons_of_mem _ hr)) hnd.2)
    intro y hy
    have hle : ifKey x ≤ ifKey y := hs.1 y hy
    rcases Option.isSome_iff_exists.mp (hsome x (List.mem_cons_self _ _)) with ⟨kx, hkx⟩
    rcases Option.isSome_iff_exists.mp (hsome y (List.mem_cons_of_mem _ hy)) with ⟨ky, hky⟩
    have hne : x.ifIndex ≠ y.ifIndex := by
      intro heq
      exact hnd.1 (heq ▸ List.mem_map_of_mem Interface.ifIndex hy)
    refine Nat.lt_of_le_of_ne hle ?_
    intro hkeq
    apply hne
    rw [hkx, hky]
    have : kx = ky := by
      have e1 : ifKey x = kx := by simp [ifKey, hkx]
      have e2 : ifKey y = ky := by simp [ifKey, hky]
      rw [e1, e2] at hkeq
      exact hkeq
    rw [this]

/-- A successful `GetIfTable` is a successful `sortStep` of the decoded
records. -/
theorem getIfTable_ok_sortStep (c : Communicator) (con : Option Session)
    (l : List Interface) (tr : List ProtoCall)
    (h : GetIfTable c con = (.ok l, tr)) :
    ∃ recs, sortStep recs = .ok l := by
  unfold GetIfTable at h
  split at h
  · simp at h
  · split at h
    · simp at h
    · split at h
      · simp at h
      next raw tr' hw =>
        split at h
        · simp at h
        next recs hdec =>
          rw [Prod.mk.injEq] at h
          exact ⟨recs, h.1⟩

/-- C3 (amended): every successful base-table build returns records
sorted non-decreasingly by numeric `IfIndex`; when the returned `IfIndex`
values are pairwise distinct the order is strictly ascending. (The
unamended claim — distinctness and strictness unconditionally — fails on
degenerate walk data where two rows decode to the same `IfIndex`, see
the counterexample.) -/
theorem getIfTable_sorted (c : Communicator) (con : Option Session)
    (l : List Interface) (tr : List ProtoCall)
    (h : GetIfTable c con = (.ok l, tr)) :
    List.Pairwise ifLe l ∧
    ((l.map Interface.ifIndex).Nodup →
      List.Pairwise (fun a b => ifKey a < ifKey b) l) := by
  obtain ⟨recs, hs⟩ := getIfTable_ok_sortStep c con l tr h
  refine ⟨sortStep_sorted recs l hs, ?_⟩
  intro hnd
  by_cases hlen : 1 < l.length
  · exact pairwise_lt_of_le_nodup l (sortStep_sorted recs l hs)
      (sortStep_all_isSome recs l hs hlen) hnd
  · exact pairwise_of_length_le_one l (by omega)

/-- The `ifIndex` column definition of the degenerate devices below. -/
def idxColDef : OIDDef := { oid := "I", cfg := "", operators := fun v => .ok v }

/-- Two rows whose values both decode to `IfIndex` 7 (a broken device's
`ifIndex` column). -/
def dupRow1 : SnmpRow :=
  { oid := "I.1", getValue := .ok (.str "7"), valueBy := fun _ => .ok "7" }

/-- Second duplicate-index row. -/
def dupRow2 : SnmpRow :=
  { oid := "I.2", getValue := .ok (.str "7"), valueBy := fun _ => .ok "7" }

/-- Session serving the duplicate-index `ifIndex` column. -/
def dupSession : Session :=
  { walk := fun o => if o = "I" then .ok [dupRow1, dupRow2]
      else .error (.notFound "no such subtree")
    get := fun _ => .error (.notFound "no such object") }

/-- Device class whose `IfTable` group has only the `ifIndex` column. -/
def idxOnlyDC : DeviceClass :=
  { components := { interfaces := some { ifTable := some [("ifIndex", idxColDef)] } } }

/-- Communicator for `idxOnlyDC`. -/
def idxOnlyComm : Communicator := ⟨idxOnlyDC, idxOnlyDC⟩

/-- Counterexample to C3 as stated: a successful base-table build whose
two records carry the same `IfIndex` 7 — the result is neither
pairwise-distinct in `IfIndex` nor strictly ascending. -/
theorem getIfTable_sorted_cex :
    (GetIfTable idxOnlyComm (some dupSession)).1 =
      .ok [{ ifIndex := some 7 }, { ifIndex := some 7 }] ∧
    ¬ List.Pairwise (fun a b => ifKey a < ifKey b)
        ([{ ifIndex := some 7 }, { ifIndex := some 7 }] : List Interface) ∧
    ¬ (([{ ifIndex := some 7 }, { ifIndex := some 7 }] : List Interface).map
        Interface.ifIndex).Nodup := by
  refine ⟨rfl, ?_, ?_⟩ <;> decide

/-- Rows of a well-formed `ifIndex` column, delivered in descending
response order (index 10 before index 9). -/
def numRow10 : SnmpRow :=
  { oid := "I.10", getValue := .ok (.str "10"), valueBy := fun _ => .ok "10" }

/-- The index-9 row. -/
def numRow9 : SnmpRow :=
  { oid := "I.9", getValue := .ok (.str "9"), valueBy := fun _ => .ok "9" }

/-- Session returning the rows in descending numeric (ascending lexical)
order. -/
def numSession : Session :=
  { walk := fun o => if o = "I" then .ok [numRow10, numRow9]
      else .error (.notFound "no such subtree")
    get := fun _ => .error (.notFound "no such object") }

/-- Witness for C3 (amended): the build sorts records 10, 9 into the
numeric order 9 < 10 (lexical string order would keep "10" before "9"),
and with the distinct indices the theorem yields strict ascent. -/
theorem getIfTable_sorted_witness :
    GetIfTable idxOnlyComm (some numSession) =
      (.ok [{ ifIndex := some 9 }, { ifIndex := some 10 }], [.walk "I"]) ∧
    List.Pairwise (fun a b => ifKey a < ifKey b)
      ([{ ifIndex := some 9 }, { ifIndex := some 10 }] : List Interface) :=
  ⟨rfl, (getIfTable_sorted idxOnlyComm (some numSession)
      [{ ifIndex := some 9 }, { ifIndex := some 10 }] [.walk "I"] rfl).2 (by decide)⟩

/-! ### C4 — records whose IfIndex fails to populate -/

/-- A `ifDescr`-only column definition walked at subtree `D`. -/
def descrOnlyDef : OIDDef := { oid := "D", cfg := "", operators := fun v => .ok v }

/-- Description row at index 1. -/
def dRow1 : SnmpRow :=
  { oid := "D.1", getValue := .ok (.str "eth0"), valueBy := fun _ => .ok "eth0" }

/-- Description row at index 2. -/
def dRow2 : SnmpRow :=
  { oid := "D.2", getValue := .ok (.str "eth1"), valueBy := fun _ => .ok "eth1" }

/-- Session whose `D` subtree yields two description rows and whose `E`
subtree yields a single one. -/
def descrOnlySession : Session :=
  { walk := fun o =>
      if o = "D" then .ok [dRow1, dRow2]
      else if o = "E" then .ok [dRow1]
      else .error (.notFound "no such subtree")
    get := fun _ => .error (.notFound "no such object") }

/-- Device class whose `IfTable` group has only the description column
(no `ifIndex` entry), two rows. -/
def descrOnlyDC : DeviceClass :=
  { components := { interfaces := some { ifTable := some [("ifDescr", descrOnlyDef)] } } }

/-- Communicator for `descrOnlyDC`. -/
def descrOnlyComm : Communicator := ⟨descrOnlyDC, descrOnlyDC⟩

/-- A `ifDescr`-only column definition walked at subtree `E`. -/
def descrOnlyDefE : OIDDef := { oid := "E", cfg := "", operators := fun v => .ok v }

/-- Single-row variant: the `IfTable` group walks subtree `E`. -/
def descrOnlySingleDC : DeviceClass :=
  { components :=
      { interfaces := some { ifTable := some [("ifDescr", descrOnlyDefE)] } } }

/-- Communicator for `descrOnlySingleDC`. -/
def descrOnlySingleComm : Communicator := ⟨descrOnlySingleDC, descrOnlySingleDC⟩

/-- C4 (code behavior at the failing input): entries lacking an `ifIndex`
key decode successfully with `IfIndex` unpopulated — no decode error is
returned. With two such records the sort comparator dereferences the nil
`IfIndex` and the build terminates abnormally (runtime panic); with a
single record the comparator is never invoked and the record is returned,
without error, with `IfIndex` unpopulated. Both outcomes contradict the
claim that a decode error is returned to the caller. -/
theorem getIfTable_missing_ifIndex_behavior :
    GetIfTable descrOnlyComm (some descrOnlySession) =
      (.error (.panic "runtime error: invalid memory address or nil pointer dereference"),
        [.walk "D"]) ∧
    GetIfTable descrOnlySingleComm (some descrOnlySession) =
      (.ok [{ ifDescr := some "eth0" }], [.walk "E"]) :=
  ⟨rfl, rfl⟩

end Thola
